import Mathlib

/-
Verification development for `thread_local_heap.cc` (MrMabulous/ThreadLocalHeap).

Shallow embedding conventions:
- `size_t` is modelled as `Nat` with arithmetic reduced modulo `SIZE_MOD = 2^64`
  wherever the C++ performs machine arithmetic (the library refuses to compile
  for 32-bit targets, so `size_t` is 64 bits wide and
  `__STDCPP_DEFAULT_NEW_ALIGNMENT__` is 16, as with MSVC on x64).
- Pointers and `HANDLE`s are modelled as `Nat` addresses; the null pointer is `0`.
- Calls into the OS (`HeapAlloc`, `HeapFree`) are nondeterministic from the
  program's point of view, so their results are passed to the embedded
  functions as explicit parameters (an `Option Nat` allocation result, a
  `Bool` free result).
- `delete this` inside `PrivateHeap` runs `~PrivateHeap`, which calls
  `HeapDestroy(heap_handle_)` and releases the object's own storage; this is
  modelled by the `HeapAfter.destroyed` result carrying the destroyed handle.
-/

/-- Modulus of 64-bit `size_t` arithmetic: 2^64. -/
def SIZE_MOD : Nat := 18446744073709551616

/-- `__STDCPP_DEFAULT_NEW_ALIGNMENT__` for the supported (x64 MSVC) target. -/
def STDCPP_DEFAULT_NEW_ALIGNMENT : Nat := 16

/-- `sizeof(void*)` = `sizeof(PrivateHeap*)` on x64. -/
def sizeof_ptr : Nat := 8

/-- 64-bit increment: `n + 1` as `size_t`. -/
def inc64 (n : Nat) : Nat := (n + 1) % SIZE_MOD

/-- 64-bit decrement: `n - 1` as `size_t` (wraps at 0). -/
def dec64 (n : Nat) : Nat := (n + (SIZE_MOD - 1)) % SIZE_MOD

/-- The state of a live `PrivateHeap` object (`thread_local_heap.cc:21-88`). -/
structure PrivateHeap where
  /-- `allocation_count_`: number of allocations not yet freed (`size_t`). -/
  allocation_count : Nat
  /-- `heap_handle_`: handle to the wrapped Windows heap. -/
  heap_handle : Nat
  /-- `marked_for_destruction_`. -/
  marked_for_destruction : Bool
  /-- `use_process_heap_`: whether this wraps the process heap. -/
  use_process_heap : Bool
deriving DecidableEq

/-- Result of an operation that may run `delete this` on the heap:
either the heap object lives on in state `h`, or the object was deleted
(its destructor called `HeapDestroy` on the recorded handle). -/
inductive HeapAfter where
  | live (h : PrivateHeap)
  | destroyed (heap_handle : Nat)
deriving DecidableEq

/-- `PrivateHeap::PrivateHeap(use_process_heap)` (lines 25-35): counts start at
zero, unmarked; `os_handle` is the handle `GetProcessHeap()` / `HeapCreate`
returned. -/
def PrivateHeap.create (use_process_heap : Bool) (os_handle : Nat) : PrivateHeap :=
  { allocation_count := 0
    heap_handle := os_handle
    marked_for_destruction := false
    use_process_heap := use_process_heap }

/-- `PrivateHeap::empty()` (line 65). -/
def PrivateHeap.empty (h : PrivateHeap) : Bool := h.allocation_count == 0

/-- `PrivateHeap::alloc(bytes)` (lines 43-49); `os_ptr` is what
`HeapAlloc(heap_handle_, 0, bytes)` returned (`none` = `NULL`). On success the
count is incremented; on failure the state is unchanged. -/
def PrivateHeap.alloc (h : PrivateHeap) (os_ptr : Option Nat) : Option Nat × PrivateHeap :=
  match os_ptr with
  | some p => (some p, { h with allocation_count := inc64 h.allocation_count })
  | none => (none, h)

/-- `PrivateHeap::free(ptr)` (lines 53-62); `os_success` is what
`HeapFree(heap_handle_, 0, ptr)` returned. On success the count is
decremented and, if the heap is marked, non-fallback and now empty,
`delete this` runs. -/
def PrivateHeap.free (h : PrivateHeap) (os_success : Bool) : Bool × HeapAfter :=
  if os_success then
    let h' := { h with allocation_count := dec64 h.allocation_count }
    (true,
      if h'.marked_for_destruction && !h'.use_process_heap && h'.empty then
        HeapAfter.destroyed h'.heap_handle
      else
        HeapAfter.live h')
  else
    (false, HeapAfter.live h)

/-- `PrivateHeap::mark_for_destruction()` (lines 68-74). -/
def PrivateHeap.mark_for_destruction (h : PrivateHeap) : HeapAfter :=
  if h.empty && !h.use_process_heap then
    HeapAfter.destroyed h.heap_handle
  else
    HeapAfter.live { h with marked_for_destruction := true }

/-- `PrivateHeap process_private_heap_(true)` (line 91), wrapping the handle
returned by `GetProcessHeap()`. -/
def process_private_heap (process_heap_handle : Nat) : PrivateHeap :=
  PrivateHeap.create true process_heap_handle

/-- `heap_ptr_ofst()` (lines 94-97): bytes reserved in front of every block for
the back-reference, padded to the default `new` alignment. -/
def heap_ptr_ofst : Nat :=
  if STDCPP_DEFAULT_NEW_ALIGNMENT < sizeof_ptr then sizeof_ptr
  else STDCPP_DEFAULT_NEW_ALIGNMENT

/-- Address `p - heap_ptr_ofst()` as computed by 64-bit pointer arithmetic
(`ThreadLocalHeap::free`, line 133). -/
def header_addr (p : Nat) : Nat := (p + (SIZE_MOD - heap_ptr_ofst)) % SIZE_MOD

/-- Address `p - sizeof(void*)` as computed by 64-bit pointer arithmetic
(aligned `operator new`/`operator delete`, lines 197 and 203). -/
def slot_addr (p : Nat) : Nat := (p + (SIZE_MOD - sizeof_ptr)) % SIZE_MOD

/-- State of a per-thread `ThreadLocalHeap` object (lines 100-149). The
associated `PrivateHeap` is referred to by an identifier (`HeapId = Nat`)
into an explicit map of heap objects, mirroring the `PrivateHeap*` pointer. -/
structure ThreadLocalHeap where
  /-- `private_heap_`: id of the associated `PrivateHeap`. -/
  private_heap : Nat
  /-- `ready_`: whether the associated `PrivateHeap` has been constructed. -/
  ready : Bool
deriving DecidableEq

/-- `overalloc = count + heap_ptr_ofst()` (line 116): the size passed down to
`PrivateHeap::alloc`, computed in `size_t` arithmetic with no overflow check. -/
def ThreadLocalHeap.overalloc (count : Nat) : Nat := (count + heap_ptr_ofst) % SIZE_MOD

/-- `ThreadLocalHeap::alloc(count)` (lines 115-129). `heaps` maps heap ids to
`PrivateHeap` states and `mem` records the back-reference words written in
front of returned blocks (`mem a = some hid`: address `a` holds a pointer to
heap `hid`; `some 0` would be a stored null pointer). `fb` is the id of
`process_private_heap_`; `os` gives `HeapAlloc`'s reply as a function of the
requested byte count. Returns the pointer handed to the caller and the
updated heap map and memory. -/
def ThreadLocalHeap.alloc (t : ThreadLocalHeap) (count : Nat) (fb : Nat)
    (heaps : Nat → PrivateHeap) (mem : Nat → Option Nat) (os : Nat → Option Nat) :
    Option Nat × (Nat → PrivateHeap) × (Nat → Option Nat) :=
  let private_heap := if t.ready then t.private_heap else fb
  match (heaps private_heap).alloc (os (ThreadLocalHeap.overalloc count)) with
  | (some ptr, h') =>
      (some ((ptr + heap_ptr_ofst) % SIZE_MOD),
       fun i => if i = private_heap then h' else heaps i,
       fun a => if a = ptr then some private_heap else mem a)
  | (none, _) => (none, heaps, mem)

/-- Where `ThreadLocalHeap::free` routed a deallocation. -/
inductive FreeRoute where
  /-- The stored back-reference was a non-null heap pointer: the call was
  `heap->free(actual_ptr)` on heap `hid`, with the given result. -/
  | heap (hid : Nat) (actual : Nat) (result : Bool × HeapAfter)
  /-- The stored back-reference was null: the call was `std::free(actual_ptr)`
  and `true` was returned. -/
  | stdFree (actual : Nat)
  /-- The model has no record of a back-reference at `actual`: the value the
  code would read is indeterminate (freeing a pointer that was never
  allocated by this allocator). -/
  | unknown (actual : Nat)
deriving DecidableEq

/-- `ThreadLocalHeap::free(ptr)` (lines 132-141): reads the back-reference at
`ptr - heap_ptr_ofst()` and delegates to that heap (or `std::free`).
`os_success` is `HeapFree`'s reply for the delegated call. -/
def ThreadLocalHeap.free (heaps : Nat → PrivateHeap) (mem : Nat → Option Nat)
    (p : Nat) (os_success : Bool) : FreeRoute :=
  let actual := header_addr p
  match mem actual with
  | some hid =>
      if hid ≠ 0 then FreeRoute.heap hid actual ((heaps hid).free os_success)
      else FreeRoute.stdFree actual
  | none => FreeRoute.unknown actual

/-- The single operation the body of `~ThreadLocalHeap()` performs. -/
inductive TlhDtorOp where
  | markForDestruction
deriving DecidableEq

/-- The body of `~ThreadLocalHeap()` (lines 110-112) as the list of heap
operations it performs: exactly one `mark_for_destruction` call. -/
def ThreadLocalHeap.destructor_body : List TlhDtorOp := [TlhDtorOp.markForDestruction]

/-- Effect of `~ThreadLocalHeap()` on the associated `PrivateHeap`. -/
def ThreadLocalHeap.destruct (h : PrivateHeap) : HeapAfter :=
  h.mark_for_destruction

/-- One complete (mutex-serialized) operation on a single `PrivateHeap`, with
the OS reply baked in: an allocation attempt (`HeapAlloc` returning `os_ptr`),
a deallocation (`HeapFree` returning `os_success`), or the owning thread's
exit-time `mark_for_destruction`. -/
inductive HOp where
  | alloc (os_ptr : Option Nat)
  | free (os_success : Bool)
  | mark
deriving DecidableEq

/-- Effect of one whole operation on the heap. A destroyed heap absorbs all
further operations (well-formed executions never reach that situation). -/
def hstep : HeapAfter → HOp → HeapAfter
  | HeapAfter.live h, HOp.alloc os => HeapAfter.live (h.alloc os).2
  | HeapAfter.live h, HOp.free os => (h.free os).2
  | HeapAfter.live h, HOp.mark => h.mark_for_destruction
  | HeapAfter.destroyed hh, _ => HeapAfter.destroyed hh

/-- Run a sequence of whole operations. -/
def hrun (s : HeapAfter) (ops : List HOp) : HeapAfter := ops.foldl hstep s

/-- Number of successful allocations in a trace. -/
def allocOkCount : List HOp → Nat
  | [] => 0
  | e :: t => (match e with | HOp.alloc (some _) => 1 | _ => 0) + allocOkCount t

/-- Number of successful deallocations in a trace. -/
def freeOkCount : List HOp → Nat
  | [] => 0
  | e :: t => (match e with | HOp.free true => 1 | _ => 0) + freeOkCount t

/-- Number of `mark_for_destruction` calls in a trace. -/
def markCount : List HOp → Nat
  | [] => 0
  | e :: t => (match e with | HOp.mark => 1 | _ => 0) + markCount t

/-- Well-formed continuations of an execution in which `a` allocations have
succeeded, `f` deallocations have succeeded and `m` `mark_for_destruction`
calls have happened: every deallocation matches an outstanding allocation,
`mark_for_destruction` happens at most once (the thread exits once), no
allocation happens after the owning thread exited, and fewer than `2^64`
allocations happen overall (each one occupies at least `heap_ptr_ofst`
bytes, so more cannot fit in a 64-bit address space). -/
def wfFrom : Nat → Nat → Nat → List HOp → Bool
  | _, _, _, [] => true
  | a, f, m, HOp.alloc (some _) :: t =>
      decide (m = 0) && decide (a + 1 < SIZE_MOD) && wfFrom (a + 1) f m t
  | a, f, m, HOp.alloc none :: t => wfFrom a f m t
  | a, f, m, HOp.free true :: t => decide (f + 1 ≤ a) && wfFrom a (f + 1) m t
  | a, f, m, HOp.free false :: t => wfFrom a f m t
  | a, f, m, HOp.mark :: t => decide (m = 0) && wfFrom a f 1 t

/-- The heap state reached after `a` successful allocations, `f` successful
deallocations and `m` marks on a non-fallback heap with handle `handle`. -/
def stateOf (handle a f m : Nat) : HeapAfter :=
  if m = 1 ∧ f = a then HeapAfter.destroyed handle
  else HeapAfter.live
    { allocation_count := a - f
      heap_handle := handle
      marked_for_destruction := decide (m = 1)
      use_process_heap := false }

/-- Whether the heap object is still alive. -/
def isLive : HeapAfter → Bool
  | HeapAfter.live _ => true
  | HeapAfter.destroyed _ => false

/-- Number of times `delete this` runs along a trace (live-to-destroyed
transitions). -/
def destructions : HeapAfter → List HOp → Nat
  | _, [] => 0
  | s, e :: t =>
      (if isLive s && !isLive (hstep s e) then 1 else 0) + destructions (hstep s e) t

/-- Shared state of one non-fallback `PrivateHeap` as seen by two racing
threads, at the granularity of the individual statements of
`PrivateHeap::free` and `PrivateHeap::mark_for_destruction` (the code takes
no lock around them). `dA` is thread A's local record of the branch its
`mark_for_destruction` chose; `destroy_count` counts executions of
`delete this`. -/
structure RaceState where
  allocation_count : Nat
  marked_for_destruction : Bool
  destroy_count : Nat
  dA : Bool
deriving DecidableEq

/-- Fine-grained statements of the two racing calls on a non-fallback heap.
Thread A runs `mark_for_destruction` = [`aCond`; `aBody`]; thread B runs
`free` (with `HeapFree` succeeding) = [`bHeapFree`; `bDec`; `bCheck`]. -/
inductive RaceOp where
  /-- A evaluates `empty() && !use_process_heap_` (line 69). -/
  | aCond
  /-- A runs the chosen branch: `delete this` or `marked_for_destruction_ = true`. -/
  | aBody
  /-- B's `HeapFree` call (line 54), succeeding; no effect on the bookkeeping. -/
  | bHeapFree
  /-- B runs `allocation_count_--` (line 56). -/
  | bDec
  /-- B evaluates `marked_for_destruction_ && !use_process_heap_ && empty()`
  and runs `delete this` if it holds (lines 57-59). -/
  | bCheck
deriving DecidableEq

def race_step (s : RaceState) : RaceOp → RaceState
  | RaceOp.aCond => { s with dA := s.allocation_count == 0 }
  | RaceOp.aBody =>
      if s.dA then { s with destroy_count := s.destroy_count + 1 }
      else { s with marked_for_destruction := true }
  | RaceOp.bHeapFree => s
  | RaceOp.bDec => { s with allocation_count := dec64 s.allocation_count }
  | RaceOp.bCheck =>
      if s.marked_for_destruction && (s.allocation_count == 0) then
        { s with destroy_count := s.destroy_count + 1 }
      else s

/-- One outstanding allocation, thread not yet exited. -/
def race_init : RaceState :=
  { allocation_count := 1, marked_for_destruction := false,
    destroy_count := 0, dA := false }

/-- The interleaving: A reads a non-zero count, B completes the entire last
free (seeing the mark still unset), then A sets the mark. -/
def racy_interleaving : List RaceOp :=
  [RaceOp.aCond, RaceOp.bHeapFree, RaceOp.bDec, RaceOp.bCheck, RaceOp.aBody]

def racy_final : RaceState := racy_interleaving.foldl race_step race_init

/-- The size computation and overflow check of the over-aligned
`operator new(count, al)` (lines 184-191), for `align > `
`__STDCPP_DEFAULT_NEW_ALIGNMENT__` inlining the `actually_allocating`
local: `none` means `std::bad_alloc` is thrown before `operator new` is
called; `some r` means `operator new(r)` is called. For small alignments it
delegates to `operator new(count)` unchanged (line 186). -/
def operator_new_aligned_request (count align : Nat) : Option Nat :=
  if align ≤ STDCPP_DEFAULT_NEW_ALIGNMENT then some count
  else if (align + count) % SIZE_MOD < count then none
  else if ((align + count) % SIZE_MOD + sizeof_ptr) % SIZE_MOD
      < (align + count) % SIZE_MOD then none
  else some (((align + count) % SIZE_MOD + sizeof_ptr) % SIZE_MOD)

/-- The byte count the over-aligned `operator new` path hands to `HeapAlloc`:
the inner `operator new` forwards to `ThreadLocalHeap::alloc`, which adds
`heap_ptr_ofst()` with no overflow check (line 116). -/
def operator_new_aligned_os_request (count align : Nat) : Option Nat :=
  (operator_new_aligned_request count align).map ThreadLocalHeap.overalloc

/-- `delete_impl(ptr)` (lines 165-169): `none` = early return on a null
pointer (no heap operation); `some p` = `ThreadLocalHeap::free(p)` invoked. -/
def delete_impl (ptr : Nat) : Option Nat :=
  if ptr = 0 then none else some ptr

/-- The memory read the over-aligned `operator delete(ptr, al)` performs
(lines 201-204): for `al` above the default alignment it dereferences
`ptr - sizeof(void*)` before any null check; otherwise it reads nothing. -/
def operator_delete_aligned_read (ptr align : Nat) : Option Nat :=
  if STDCPP_DEFAULT_NEW_ALIGNMENT < align then some (slot_addr ptr) else none

/-- Smallest multiple of `a` that is at least `p`. For a power-of-two `a`
this equals the pointer rounding `(p + a - 1) & ~(a - 1)` that `std::align`
performs. -/
def align_up (p a : Nat) : Nat := a * ((p + a - 1) / a)

/-- Contract of `std::align(align, size, ptr, space)` (called at line 195)
for the power-of-two alignments `operator new` receives: on success the
rounded-up pointer, `none` when `size` bytes at the rounded pointer do not
fit in `space`. -/
def std_align (align size p space : Nat) : Option Nat :=
  if align_up p align + size ≤ p + space then some (align_up p align) else none

/-- Placement performed by the over-aligned `operator new` path
(lines 193-198) once the inner `operator new` returned `u` and
`actually_allocating = space` bytes were reserved: the address returned to
the caller (`std::align`'s result; the code ignores `std::align`'s failure
return, leaving the pointer unchanged) and the address of the recovery slot
(`aligned - sizeof(void*)`) into which the unaligned base `u` is stored. -/
def operator_new_aligned_place (align u space : Nat) : Nat × Nat :=
  (match std_align align 0 u space with
    | some a => (a, slot_addr a)
    | none => (u, slot_addr u))

/-- The memory contents after the over-aligned `operator new` stored the
unaligned base `u` in the recovery slot (line 197). -/
def operator_new_aligned_mem (mem : Nat → Option Nat) (align u space : Nat) :
    Nat → Option Nat :=
  fun a => if a = (operator_new_aligned_place align u space).2 then some u
    else mem a

/-- The pointer the over-aligned `operator delete(ptr, al)` (lines 201-206)
passes on to `operator delete`: for over-alignments, the recovery slot's
contents (`none` = the slot was never written, the read is garbage);
otherwise `ptr` itself. -/
def operator_delete_aligned_target (mem : Nat → Option Nat) (ptr align : Nat) :
    Option Nat :=
  if STDCPP_DEFAULT_NEW_ALIGNMENT < align then mem (slot_addr ptr) else some ptr

theorem inc64_eq (n : Nat) (h : n + 1 < SIZE_MOD) : inc64 n = n + 1 := by
  simp only [inc64, SIZE_MOD] at *
  omega

theorem dec64_eq (n : Nat) (h0 : 0 < n) (h1 : n < SIZE_MOD) : dec64 n = n - 1 := by
  simp only [dec64, SIZE_MOD] at *
  omega

theorem heap_ptr_ofst_eq : heap_ptr_ofst = 16 := rfl

theorem hstep_destroyed (hh : Nat) (e : HOp) :
    hstep (HeapAfter.destroyed hh) e = HeapAfter.destroyed hh := by
  cases e <;> rfl

theorem hrun_destroyed (t : List HOp) (hh : Nat) :
    hrun (HeapAfter.destroyed hh) t = HeapAfter.destroyed hh := by
  induction t with
  | nil => rfl
  | cons e t ih => simpa [hrun, hstep_destroyed] using ih

theorem hrun_cons (s : HeapAfter) (e : HOp) (t : List HOp) :
    hrun s (e :: t) = hrun (hstep s e) t := rfl

theorem destructions_eq (t : List HOp) : ∀ s : HeapAfter,
    destructions s t = if isLive s && !isLive (hrun s t) then 1 else 0 := by
  induction t with
  | nil =>
      intro s
      cases s <;> simp [destructions, hrun, isLive]
  | cons e t ih =>
      intro s
      rw [destructions, hrun_cons, ih (hstep s e)]
      cases s with
      | destroyed hh =>
          simp [isLive, hstep_destroyed]
      | live h =>
          cases hs' : hstep (HeapAfter.live h) e with
          | destroyed hh' =>
              simp [isLive, hrun_destroyed]
          | live h' =>
              simp [isLive]

theorem stateOf_zero_mark (handle a f : Nat) :
    stateOf handle a f 0 = HeapAfter.live
      { allocation_count := a - f, heap_handle := handle,
        marked_for_destruction := false, use_process_heap := false } := by
  simp [stateOf]

theorem stateOf_one_mark_live (handle a f : Nat) (hne : f ≠ a) :
    stateOf handle a f 1 = HeapAfter.live
      { allocation_count := a - f, heap_handle := handle,
        marked_for_destruction := true, use_process_heap := false } := by
  simp [stateOf, hne]

theorem stateOf_one_mark_destroyed (handle a : Nat) :
    stateOf handle a a 1 = HeapAfter.destroyed handle := by
  simp [stateOf]

theorem hstep_alloc_some_mk (c hh : Nat) (m u : Bool) (p : Nat) :
    hstep (HeapAfter.live (PrivateHeap.mk c hh m u)) (HOp.alloc (some p))
      = HeapAfter.live (PrivateHeap.mk (inc64 c) hh m u) := rfl

theorem hstep_alloc_none_mk (c hh : Nat) (m u : Bool) :
    hstep (HeapAfter.live (PrivateHeap.mk c hh m u)) (HOp.alloc none)
      = HeapAfter.live (PrivateHeap.mk c hh m u) := rfl

theorem hstep_free_true_mk (c hh : Nat) (m u : Bool) :
    hstep (HeapAfter.live (PrivateHeap.mk c hh m u)) (HOp.free true)
      = if m && !u && (dec64 c == 0) then HeapAfter.destroyed hh
        else HeapAfter.live (PrivateHeap.mk (dec64 c) hh m u) := rfl

theorem hstep_free_false_mk (c hh : Nat) (m u : Bool) :
    hstep (HeapAfter.live (PrivateHeap.mk c hh m u)) (HOp.free false)
      = HeapAfter.live (PrivateHeap.mk c hh m u) := rfl

theorem hstep_mark_mk (c hh : Nat) (m u : Bool) :
    hstep (HeapAfter.live (PrivateHeap.mk c hh m u)) HOp.mark
      = if (c == 0) && !u then HeapAfter.destroyed hh
        else HeapAfter.live (PrivateHeap.mk c hh true u) := rfl

theorem stateOf_congr (handle : Nat) {a a' f f' m m' : Nat}
    (ha : a = a') (hf : f = f') (hm : m = m') :
    stateOf handle a f m = stateOf handle a' f' m' := by
  rw [ha, hf, hm]

/-- Invariant of well-formed executions: after a well-formed trace the heap is
exactly in the state determined by the numbers of successful allocations,
successful deallocations and marks so far. -/
theorem hrun_wf (handle : Nat) : ∀ (t : List HOp) (a f m : Nat),
    wfFrom a f m t = true → f ≤ a → a < SIZE_MOD → m ≤ 1 →
    hrun (stateOf handle a f m) t
        = stateOf handle (a + allocOkCount t) (f + freeOkCount t) (m + markCount t)
      ∧ f + freeOkCount t ≤ a + allocOkCount t
      ∧ a + allocOkCount t < SIZE_MOD
      ∧ m + markCount t ≤ 1 := by
  intro t
  induction t with
  | nil =>
      intro a f m hwf hfa ha hm
      exact ⟨rfl, hfa, ha, hm⟩
  | cons e t ih =>
      intro a f m hwf hfa ha hm
      cases e with
      | alloc os =>
          cases os with
          | some p =>
              simp only [wfFrom, Bool.and_eq_true, decide_eq_true_eq] at hwf
              obtain ⟨⟨hm0, ha1⟩, hwf'⟩ := hwf
              subst hm0
              have hA : allocOkCount (HOp.alloc (some p) :: t) = 1 + allocOkCount t := rfl
              have hF : freeOkCount (HOp.alloc (some p) :: t) = 0 + freeOkCount t := rfl
              have hM : markCount (HOp.alloc (some p) :: t) = 0 + markCount t := rfl
              have hstepeq : hstep (stateOf handle a f 0) (HOp.alloc (some p))
                  = stateOf handle (a + 1) f 0 := by
                rw [stateOf_zero_mark, stateOf_zero_mark, hstep_alloc_some_mk,
                  inc64_eq (a - f) (by omega), (by omega : a - f + 1 = a + 1 - f)]
              rw [hrun_cons, hstepeq, hA, hF, hM]
              obtain ⟨h1, h2, h3, h4⟩ := ih (a + 1) f 0 hwf' (by omega) ha1 (by omega)
              exact ⟨h1.trans (stateOf_congr handle (by omega) (by omega) (by omega)),
                by omega, by omega, by omega⟩
          | none =>
              simp only [wfFrom] at hwf
              have hA : allocOkCount (HOp.alloc none :: t) = 0 + allocOkCount t := rfl
              have hF : freeOkCount (HOp.alloc none :: t) = 0 + freeOkCount t := rfl
              have hM : markCount (HOp.alloc none :: t) = 0 + markCount t := rfl
              have hstepeq : hstep (stateOf handle a f m) (HOp.alloc none)
                  = stateOf handle a f m := by
                rcases Nat.le_one_iff_eq_zero_or_eq_one.mp hm with rfl | rfl
                · rw [stateOf_zero_mark, hstep_alloc_none_mk]
                · by_cases hfa0 : f = a
                  · subst hfa0
                    rw [stateOf_one_mark_destroyed, hstep_destroyed]
                  · rw [stateOf_one_mark_live handle a f hfa0, hstep_alloc_none_mk]
              rw [hrun_cons, hstepeq, hA, hF, hM]
              obtain ⟨h1, h2, h3, h4⟩ := ih a f m hwf hfa ha hm
              exact ⟨h1.trans (stateOf_congr handle (by omega) (by omega) (by omega)),
                by omega, by omega, by omega⟩
      | free os =>
          cases os with
          | true =>
              simp only [wfFrom, Bool.and_eq_true, decide_eq_true_eq] at hwf
              obtain ⟨hf1, hwf'⟩ := hwf
              have hA : allocOkCount (HOp.free true :: t) = 0 + allocOkCount t := rfl
              have hF : freeOkCount (HOp.free true :: t) = 1 + freeOkCount t := rfl
              have hM : markCount (HOp.free true :: t) = 0 + markCount t := rfl
              have hd : dec64 (a - f) = a - (f + 1) := by
                rw [dec64_eq (a - f) (by omega) (by omega)]
                omega
              have hstepeq : hstep (stateOf handle a f m) (HOp.free true)
                  = stateOf handle a (f + 1) m := by
                rcases Nat.le_one_iff_eq_zero_or_eq_one.mp hm with rfl | rfl
                · rw [stateOf_zero_mark, stateOf_zero_mark, hstep_free_true_mk, hd,
                    if_neg (by simp)]
                · have hne : f ≠ a := by omega
                  rw [stateOf_one_mark_live handle a f hne, hstep_free_true_mk, hd]
                  by_cases hfa1 : f + 1 = a
                  · have hz : a - (f + 1) = 0 := by omega
                    rw [hz, if_pos (by decide), ← hfa1, stateOf_one_mark_destroyed]
                  · have hz : a - (f + 1) ≠ 0 := by omega
                    rw [if_neg (by simp [hz]), stateOf_one_mark_live handle a (f + 1) hfa1]
              rw [hrun_cons, hstepeq, hA, hF, hM]
              obtain ⟨h1, h2, h3, h4⟩ := ih a (f + 1) m hwf' (by omega) ha hm
              exact ⟨h1.trans (stateOf_congr handle (by omega) (by omega) (by omega)),
                by omega, by omega, by omega⟩
          | false =>
              simp only [wfFrom] at hwf
              have hA : allocOkCount (HOp.free false :: t) = 0 + allocOkCount t := rfl
              have hF : freeOkCount (HOp.free false :: t) = 0 + freeOkCount t := rfl
              have hM : markCount (HOp.free false :: t) = 0 + markCount t := rfl
              have hstepeq : hstep (stateOf handle a f m) (HOp.free false)
                  = stateOf handle a f m := by
                rcases Nat.le_one_iff_eq_zero_or_eq_one.mp hm with rfl | rfl
                · rw [stateOf_zero_mark, hstep_free_false_mk]
                · by_cases hfa0 : f = a
                  · subst hfa0
                    rw [stateOf_one_mark_destroyed, hstep_destroyed]
                  · rw [stateOf_one_mark_live handle a f hfa0, hstep_free_false_mk]
              rw [hrun_cons, hstepeq, hA, hF, hM]
              obtain ⟨h1, h2, h3, h4⟩ := ih a f m hwf hfa ha hm
              exact ⟨h1.trans (stateOf_congr handle (by omega) (by omega) (by omega)),
                by omega, by omega, by omega⟩
      | mark =>
          simp only [wfFrom, Bool.and_eq_true, decide_eq_true_eq] at hwf
          obtain ⟨hm0, hwf'⟩ := hwf
          subst hm0
          have hA : allocOkCount (HOp.mark :: t) = 0 + allocOkCount t := rfl
          have hF : freeOkCount (HOp.mark :: t) = 0 + freeOkCount t := rfl
          have hM : markCount (HOp.mark :: t) = 1 + markCount t := rfl
          have hstepeq : hstep (stateOf handle a f 0) HOp.mark
              = stateOf handle a f 1 := by
            rw [stateOf_zero_mark, hstep_mark_mk]
            by_cases hfa0 : f = a
            · subst hfa0
              rw [Nat.sub_self, if_pos (by decide), stateOf_one_mark_destroyed]
            · have hz : a - f ≠ 0 := by omega
              rw [if_neg (by simp [hz]), stateOf_one_mark_live handle a f hfa0]
          rw [hrun_cons, hstepeq, hA, hF, hM]
          obtain ⟨h1, h2, h3, h4⟩ := ih a f 1 hwf' hfa ha (Nat.le_refl 1)
          exact ⟨h1.trans (stateOf_congr handle (by omega) (by omega) (by omega)),
            by omega, by omega, by omega⟩

theorem wfFrom_append : ∀ (p q : List HOp) (a f m : Nat),
    wfFrom a f m (p ++ q) = true → wfFrom a f m p = true := by
  intro p
  induction p with
  | nil =>
      intro q a f m _
      rfl
  | cons e p ih =>
      intro q a f m hwf
      cases e with
      | alloc os =>
          cases os with
          | some pp =>
              simp only [List.cons_append, wfFrom, Bool.and_eq_true,
                decide_eq_true_eq] at hwf ⊢
              exact ⟨hwf.1, ih q _ _ _ hwf.2⟩
          | none =>
              simp only [List.cons_append, wfFrom] at hwf ⊢
              exact ih q _ _ _ hwf
      | free os =>
          cases os with
          | true =>
              simp only [List.cons_append, wfFrom, Bool.and_eq_true,
                decide_eq_true_eq] at hwf ⊢
              exact ⟨hwf.1, ih q _ _ _ hwf.2⟩
          | false =>
              simp only [List.cons_append, wfFrom] at hwf ⊢
              exact ih q _ _ _ hwf
      | mark =>
          simp only [List.cons_append, wfFrom, Bool.and_eq_true,
            decide_eq_true_eq] at hwf ⊢
          exact ⟨hwf.1, ih q _ _ _ hwf.2⟩

theorem isLive_stateOf (handle a f m : Nat) :
    isLive (stateOf handle a f m) = false ↔ (m = 1 ∧ f = a) := by
  by_cases hcond : m = 1 ∧ f = a
  · unfold stateOf
    rw [if_pos hcond]
    simp [isLive, hcond]
  · unfold stateOf
    rw [if_neg hcond]
    simp [isLive, hcond]

/-- C1: for a non-fallback `PrivateHeap` (constructed with
`use_process_heap = false`), along any well-formed execution (deallocations
match outstanding allocations, the owning thread exits once, no allocation
after thread exit): (1) whenever the heap object has been destroyed, all
successful allocations had been freed and the owning thread had exited, so
destruction never occurs while `allocation_count > 0` and only after the
second of the two triggering events; (2) `delete this` runs at most once; and
(3) it runs exactly once precisely when both the thread has exited and the
last matching deallocation has happened. -/
theorem c1_destroyed_exactly_once (handle : Nat) (t : List HOp)
    (hwf : wfFrom 0 0 0 t = true) :
    (∀ p q, t = p ++ q →
        isLive (hrun (HeapAfter.live (PrivateHeap.create false handle)) p) = false →
        markCount p = 1 ∧ freeOkCount p = allocOkCount p) ∧
    destructions (HeapAfter.live (PrivateHeap.create false handle)) t ≤ 1 ∧
    (destructions (HeapAfter.live (PrivateHeap.create false handle)) t = 1 ↔
      (markCount t = 1 ∧ freeOkCount t = allocOkCount t)) := by
  have hs : (0 : Nat) < SIZE_MOD := by decide
  have hinit : HeapAfter.live (PrivateHeap.create false handle) = stateOf handle 0 0 0 := by
    rw [stateOf_zero_mark]
    rfl
  refine ⟨?_, ?_⟩
  · intro p q hpq hdead
    have hwfp : wfFrom 0 0 0 p = true := by
      refine wfFrom_append p q 0 0 0 ?_
      rw [← hpq]
      exact hwf
    obtain ⟨hrunp, hle2, hlt2, hm2⟩ :=
      hrun_wf handle p 0 0 0 hwfp (Nat.le_refl 0) hs (by omega)
    rw [hinit, hrunp, isLive_stateOf] at hdead
    exact ⟨by omega, by omega⟩
  · obtain ⟨hrunt, hle, hlt, hm1⟩ :=
      hrun_wf handle t 0 0 0 hwf (Nat.le_refl 0) hs (by omega)
    rw [hinit, destructions_eq t (stateOf handle 0 0 0), hrunt]
    have hl0 : isLive (stateOf handle 0 0 0) = true := by
      rw [stateOf_zero_mark]
      rfl
    rw [hl0]
    cases hL : isLive (stateOf handle (0 + allocOkCount t) (0 + freeOkCount t)
        (0 + markCount t)) with
    | true =>
        have hnc : ¬(markCount t = 1 ∧ freeOkCount t = allocOkCount t) := by
          intro hc
          have hfalse := (isLive_stateOf handle (0 + allocOkCount t)
            (0 + freeOkCount t) (0 + markCount t)).mpr ⟨by omega, by omega⟩
          rw [hfalse] at hL
          exact Bool.noConfusion hL
        simp [hnc]
    | false =>
        have hc := (isLive_stateOf handle (0 + allocOkCount t)
          (0 + freeOkCount t) (0 + markCount t)).mp hL
        have hc1 : markCount t = 1 := by omega
        have hc2 : freeOkCount t = allocOkCount t := by omega
        simp [hc1, hc2]

/-- C1 witness: a concrete well-formed execution (one allocation, thread exit,
then the last free) in which destruction happens at most once. -/
theorem c1_destroyed_exactly_once_witness :
    wfFrom 0 0 0 [HOp.alloc (some 100), HOp.mark, HOp.free true] = true ∧
    destructions (HeapAfter.live (PrivateHeap.create false 7))
      [HOp.alloc (some 100), HOp.mark, HOp.free true] ≤ 1 :=
  ⟨by decide, (c1_destroyed_exactly_once 7 [HOp.alloc (some 100), HOp.mark, HOp.free true]
    (by decide)).2.1⟩

theorem alloc_some (h : PrivateHeap) (p : Nat) :
    h.alloc (some p) = (some p, { h with allocation_count := inc64 h.allocation_count }) := rfl

theorem alloc_none (h : PrivateHeap) : h.alloc none = (none, h) := rfl

theorem free_true_mk (c hh : Nat) (m u : Bool) :
    PrivateHeap.free (PrivateHeap.mk c hh m u) true
      = (true, if m && !u && (dec64 c == 0) then HeapAfter.destroyed hh
               else HeapAfter.live (PrivateHeap.mk (dec64 c) hh m u)) := rfl

theorem free_false_mk (c hh : Nat) (m u : Bool) :
    PrivateHeap.free (PrivateHeap.mk c hh m u) false
      = (false, HeapAfter.live (PrivateHeap.mk c hh m u)) := rfl

theorem mark_for_destruction_mk (c hh : Nat) (m u : Bool) :
    (PrivateHeap.mk c hh m u).mark_for_destruction
      = if (c == 0) && !u then HeapAfter.destroyed hh
        else HeapAfter.live (PrivateHeap.mk c hh true u) := rfl

theorem tlh_alloc_some (t : ThreadLocalHeap) (count fb : Nat)
    (heaps : Nat → PrivateHeap) (mem : Nat → Option Nat) (os : Nat → Option Nat) (p : Nat)
    (hready : t.ready = true) (hos : os (ThreadLocalHeap.overalloc count) = some p) :
    t.alloc count fb heaps mem os =
      (some ((p + heap_ptr_ofst) % SIZE_MOD),
       fun i => if i = t.private_heap then
           { heaps t.private_heap with
             allocation_count := inc64 (heaps t.private_heap).allocation_count }
         else heaps i,
       fun a => if a = p then some t.private_heap else mem a) := by
  unfold ThreadLocalHeap.alloc
  rw [hready, hos]
  rfl

theorem tlh_free_heap (heaps : Nat → PrivateHeap) (mem : Nat → Option Nat) (p : Nat)
    (os_success : Bool) (hid : Nat) (hmem : mem (header_addr p) = some hid)
    (hne : hid ≠ 0) :
    ThreadLocalHeap.free heaps mem p os_success
      = FreeRoute.heap hid (header_addr p) ((heaps hid).free os_success) := by
  unfold ThreadLocalHeap.free
  dsimp only
  rw [hmem]
  dsimp only
  rw [if_pos hne]

theorem header_addr_inv (p : Nat) (hp : p + heap_ptr_ofst < SIZE_MOD) :
    header_addr (p + heap_ptr_ofst) = p := by
  rw [heap_ptr_ofst_eq] at hp
  rw [header_addr, heap_ptr_ofst_eq]
  simp only [SIZE_MOD] at *
  omega

set_option maxRecDepth 4096 in
/-- C2: a block handed out by `ThreadLocalHeap::alloc` on a ready handle
(back-reference written at the block start, caller pointer just past the
header) is, when later passed to the thread-independent
`ThreadLocalHeap::free`, routed by the stored back-reference to exactly the
`PrivateHeap` that served it (`H`, whatever its current mark state, so in
particular also after the owning thread exited): `free` reads the header at
`p`, calls that heap's `free` with the header start address `p`, and the
heap's `allocation_count` returns to its pre-allocation value (the block is
never accounted to the fallback heap `fb`, whose entry the allocation left
untouched). -/
theorem c2_free_routes_to_serving_heap (t : ThreadLocalHeap) (count fb p : Nat)
    (heaps : Nat → PrivateHeap) (mem : Nat → Option Nat) (os : Nat → Option Nat)
    (H : PrivateHeap) (hH : heaps t.private_heap = H)
    (hready : t.ready = true) (hos : os (ThreadLocalHeap.overalloc count) = some p)
    (hfb : t.private_heap ≠ fb) (h0 : t.private_heap ≠ 0)
    (hcnt : H.allocation_count + 1 < SIZE_MOD)
    (hp : p + heap_ptr_ofst < SIZE_MOD) :
    (t.alloc count fb heaps mem os).1 = some (p + heap_ptr_ofst) ∧
    (t.alloc count fb heaps mem os).2.1 fb = heaps fb ∧
    ThreadLocalHeap.free (t.alloc count fb heaps mem os).2.1
        (t.alloc count fb heaps mem os).2.2 (p + heap_ptr_ofst) true
      = FreeRoute.heap t.private_heap p
          (true,
            if H.marked_for_destruction && !H.use_process_heap
                && (H.allocation_count == 0) then
              HeapAfter.destroyed H.heap_handle
            else HeapAfter.live H) := by
  obtain ⟨c, hh, m, u⟩ := H
  have hcnt' : c + 1 < SIZE_MOD := hcnt
  rw [tlh_alloc_some t count fb heaps mem os p hready hos]
  dsimp only
  rw [hH]
  dsimp only
  refine ⟨?_, ?_, ?_⟩
  · rw [Nat.mod_eq_of_lt hp]
  · rw [if_neg (fun hq => hfb hq.symm)]
  · have hmem' : (fun a => if a = p then some t.private_heap else mem a)
        (header_addr (p + heap_ptr_ofst)) = some t.private_heap := by
      rw [header_addr_inv p hp]
      simp
    rw [tlh_free_heap
      (fun i => if i = t.private_heap then
          { allocation_count := inc64 c, heap_handle := hh,
            marked_for_destruction := m, use_process_heap := u }
        else heaps i)
      (fun a => if a = p then some t.private_heap else mem a)
      (p + heap_ptr_ofst) true t.private_heap hmem' h0, header_addr_inv p hp]
    rw [if_pos (rfl : t.private_heap = t.private_heap), inc64_eq c hcnt',
      free_true_mk, dec64_eq (c + 1) (by omega) (by omega)]
    simp only [Nat.add_sub_cancel]

/-- C2 witness: concrete routing round trip at heap id 2, fallback id 1,
block base 64. -/
theorem c2_free_routes_to_serving_heap_witness :
    ((2 : Nat) ≠ 1 ∧ (2 : Nat) ≠ 0 ∧
      (PrivateHeap.create false 2).allocation_count + 1 < SIZE_MOD ∧
      64 + heap_ptr_ofst < SIZE_MOD) ∧
    (((⟨2, true⟩ : ThreadLocalHeap).alloc 24 1 (fun i => PrivateHeap.create false i)
        (fun _ => none) (fun _ => some 64)).1 = some (64 + heap_ptr_ofst) ∧
     ((⟨2, true⟩ : ThreadLocalHeap).alloc 24 1 (fun i => PrivateHeap.create false i)
        (fun _ => none) (fun _ => some 64)).2.1 1
        = (fun i => PrivateHeap.create false i) 1 ∧
     ThreadLocalHeap.free
        ((⟨2, true⟩ : ThreadLocalHeap).alloc 24 1 (fun i => PrivateHeap.create false i)
          (fun _ => none) (fun _ => some 64)).2.1
        ((⟨2, true⟩ : ThreadLocalHeap).alloc 24 1 (fun i => PrivateHeap.create false i)
          (fun _ => none) (fun _ => some 64)).2.2 (64 + heap_ptr_ofst) true
      = FreeRoute.heap 2 64
          (true,
            if (PrivateHeap.create false 2).marked_for_destruction
                && !(PrivateHeap.create false 2).use_process_heap
                && ((PrivateHeap.create false 2).allocation_count == 0) then
              HeapAfter.destroyed (PrivateHeap.create false 2).heap_handle
            else HeapAfter.live (PrivateHeap.create false 2))) :=
  ⟨⟨by decide, by decide, by decide, by decide⟩,
    c2_free_routes_to_serving_heap ⟨2, true⟩ 24 1 64 (fun i => PrivateHeap.create false i)
      (fun _ => none) (fun _ => some 64) (PrivateHeap.create false 2) rfl rfl rfl
      (by decide) (by decide) (by decide) (by decide)⟩

/-- C3: `PrivateHeap::free` with a successful `HeapFree` returns `true`,
decrements `allocation_count`, and destroys the heap object (running
`HeapDestroy` on its handle and freeing its own metadata, the
`HeapAfter.destroyed` outcome) as the final step of that same call exactly
when the heap was already marked, is not the fallback heap, and the
decrement reaches zero (count was 1); with a failed `HeapFree` it returns
`false` and leaves count and flag unchanged. -/
theorem c3_private_heap_free_spec (h : PrivateHeap)
    (h0 : 0 < h.allocation_count) (h1 : h.allocation_count < SIZE_MOD) :
    h.free true =
      (true,
        if h.marked_for_destruction && !h.use_process_heap
            && (h.allocation_count == 1) then
          HeapAfter.destroyed h.heap_handle
        else
          HeapAfter.live { h with allocation_count := h.allocation_count - 1 }) ∧
    h.free false = (false, HeapAfter.live h) := by
  obtain ⟨c, hh, m, u⟩ := h
  have h0' : 0 < c := h0
  have h1' : c < SIZE_MOD := h1
  refine ⟨?_, free_false_mk c hh m u⟩
  rw [free_true_mk, dec64_eq c h0' h1']
  dsimp only
  by_cases hc1 : c = 1
  · subst hc1
    simp
  · have hz : (c - 1 == 0) = false := by
      simp only [beq_eq_false_iff_ne, ne_eq]
      omega
    have hz2 : (c == 1) = false := by
      simp only [beq_eq_false_iff_ne, ne_eq]
      omega
    rw [hz, hz2]

/-- C3 witness: a marked, non-fallback heap with two outstanding allocations:
a successful free decrements 2 to 1 without destroying; a failed free changes
nothing. -/
theorem c3_private_heap_free_spec_witness :
    (0 < (PrivateHeap.mk 2 9 true false).allocation_count ∧
      (PrivateHeap.mk 2 9 true false).allocation_count < SIZE_MOD) ∧
    ((PrivateHeap.mk 2 9 true false).free true =
      (true,
        if (PrivateHeap.mk 2 9 true false).marked_for_destruction
            && !(PrivateHeap.mk 2 9 true false).use_process_heap
            && ((PrivateHeap.mk 2 9 true false).allocation_count == 1) then
          HeapAfter.destroyed (PrivateHeap.mk 2 9 true false).heap_handle
        else
          HeapAfter.live { PrivateHeap.mk 2 9 true false with
            allocation_count := (PrivateHeap.mk 2 9 true false).allocation_count - 1 }) ∧
     (PrivateHeap.mk 2 9 true false).free false
        = (false, HeapAfter.live (PrivateHeap.mk 2 9 true false))) :=
  ⟨⟨by decide, by decide⟩,
    c3_private_heap_free_spec (PrivateHeap.mk 2 9 true false) (by decide) (by decide)⟩

/-- C4: `PrivateHeap::mark_for_destruction` on a non-fallback heap destroys
the heap immediately when it is currently empty and otherwise sets
`marked_for_destruction` (leaving the destruction to the deallocation that
brings the count to zero); and the body of `~ThreadLocalHeap()`, run once at
thread exit, performs exactly one `mark_for_destruction` call on the
associated heap and nothing else. -/
theorem c4_mark_for_destruction_spec (h : PrivateHeap)
    (hp : h.use_process_heap = false) :
    (h.allocation_count = 0 →
      h.mark_for_destruction = HeapAfter.destroyed h.heap_handle) ∧
    (h.allocation_count ≠ 0 →
      h.mark_for_destruction
        = HeapAfter.live { h with marked_for_destruction := true }) ∧
    ThreadLocalHeap.destructor_body = [TlhDtorOp.markForDestruction] ∧
    ThreadLocalHeap.destruct h = h.mark_for_destruction := by
  obtain ⟨c, hh, m, u⟩ := h
  have hu : u = false := hp
  subst hu
  refine ⟨?_, ?_, rfl, rfl⟩
  · intro hc0
    have hc0' : c = 0 := hc0
    subst hc0'
    rw [mark_for_destruction_mk, if_pos (by decide)]
  · intro hne
    have hne' : c ≠ 0 := hne
    rw [mark_for_destruction_mk, if_neg (by simp [hne'])]

/-- C4 witness: marking a fresh (empty) thread-local heap destroys it at
once, and the destructor body is the single mark call. -/
theorem c4_mark_for_destruction_spec_witness :
    (PrivateHeap.create false 5).use_process_heap = false ∧
    (PrivateHeap.create false 5).mark_for_destruction
      = HeapAfter.destroyed (PrivateHeap.create false 5).heap_handle ∧
    ThreadLocalHeap.destructor_body = [TlhDtorOp.markForDestruction] :=
  ⟨rfl, (c4_mark_for_destruction_spec (PrivateHeap.create false 5) rfl).1 rfl,
    (c4_mark_for_destruction_spec (PrivateHeap.create false 5) rfl).2.2.1⟩

/-- C5 counterexample: `mark_for_destruction` on the shared fallback heap is
not a state-preserving no-op — it sets `marked_for_destruction_` (the claim
says the heap's state is left unchanged). -/
theorem c5_fallback_mark_changes_state :
    (process_private_heap 0).mark_for_destruction
      ≠ HeapAfter.live (process_private_heap 0) := by decide

/-- Running any operation sequence on a heap that wraps the process heap
keeps the heap object alive, with its `use_process_heap_` flag and OS handle
intact. -/
theorem hrun_process_heap (ops : List HOp) : ∀ (c hh : Nat) (m : Bool),
    ∃ h, hrun (HeapAfter.live (PrivateHeap.mk c hh m true)) ops = HeapAfter.live h
      ∧ h.use_process_heap = true ∧ h.heap_handle = hh := by
  induction ops with
  | nil =>
      intro c hh m
      exact ⟨PrivateHeap.mk c hh m true, rfl, rfl, rfl⟩
  | cons e ops ih =>
      intro c hh m
      rw [hrun_cons]
      cases e with
      | alloc os =>
          cases os with
          | some p =>
              rw [hstep_alloc_some_mk]
              exact ih (inc64 c) hh m
          | none =>
              rw [hstep_alloc_none_mk]
              exact ih c hh m
      | free os =>
          cases os with
          | true =>
              rw [hstep_free_true_mk, if_neg (by simp)]
              exact ih (dec64 c) hh m
          | false =>
              rw [hstep_free_false_mk]
              exact ih c hh m
      | mark =>
          rw [hstep_mark_mk, if_neg (by simp)]
          exact ih c hh true

/-- C5 (amended): `mark_for_destruction` on the shared fallback heap never
destroys it — it only sets `marked_for_destruction` (count, handle and the
fallback flag unchanged) — and no sequence of `alloc`, `free` and
`mark_for_destruction` calls ever destroys a heap wrapping the process heap,
regardless of its count reaching zero. -/
theorem c5_fallback_never_destroyed (h0 : PrivateHeap)
    (hp : h0.use_process_heap = true) (ops : List HOp) :
    h0.mark_for_destruction
      = HeapAfter.live { h0 with marked_for_destruction := true } ∧
    ∃ h, hrun (HeapAfter.live h0) ops = HeapAfter.live h
      ∧ h.use_process_heap = true ∧ h.heap_handle = h0.heap_handle := by
  obtain ⟨c, hh, m, u⟩ := h0
  have hu : u = true := hp
  subst hu
  refine ⟨?_, hrun_process_heap ops c hh m⟩
  rw [mark_for_destruction_mk, if_neg (by simp)]

/-- C5 witness: the fallback heap survives a mark, a successful allocation
and the matching free, its flag merely set. -/
theorem c5_fallback_never_destroyed_witness :
    (process_private_heap 0).use_process_heap = true ∧
    ((process_private_heap 0).mark_for_destruction
        = HeapAfter.live { process_private_heap 0 with marked_for_destruction := true } ∧
      ∃ h, hrun (HeapAfter.live (process_private_heap 0))
            [HOp.mark, HOp.alloc (some 4), HOp.free true] = HeapAfter.live h
        ∧ h.use_process_heap = true
        ∧ h.heap_handle = (process_private_heap 0).heap_handle) :=
  ⟨rfl, c5_fallback_never_destroyed (process_private_heap 0) rfl
    [HOp.mark, HOp.alloc (some 4), HOp.free true]⟩

/-- C6: the code guards `allocation_count_` and `marked_for_destruction_`
with no mutual-exclusion primitive, and the statement-level interleaving
`racy_interleaving` of the owning thread's `mark_for_destruction` with the
last `free` ends with the count at zero, the mark set, and `delete this`
never executed — the heap is never destroyed, which the claimed single
critical section is supposed to make impossible. Either mutex-serialized
order of the same two whole calls destroys the heap exactly once. -/
theorem c6_unsynchronized_bookkeeping_misses_destruction :
    racy_final.allocation_count = 0 ∧
    racy_final.marked_for_destruction = true ∧
    racy_final.destroy_count = 0 ∧
    destructions (HeapAfter.live (PrivateHeap.mk 1 0 false false))
      [HOp.free true, HOp.mark] = 1 ∧
    destructions (HeapAfter.live (PrivateHeap.mk 1 0 false false))
      [HOp.mark, HOp.free true] = 1 := by decide

theorem request_none (count align : Nat)
    (h16 : STDCPP_DEFAULT_NEW_ALIGNMENT < align)
    (ha : align < SIZE_MOD) (hc : count < SIZE_MOD)
    (hov : SIZE_MOD ≤ align + count + sizeof_ptr) :
    operator_new_aligned_request count align = none := by
  unfold operator_new_aligned_request
  simp only [SIZE_MOD, STDCPP_DEFAULT_NEW_ALIGNMENT, sizeof_ptr] at *
  split_ifs with g1 g2 g3
  · exact absurd g1 (by omega)
  · rfl
  · rfl
  · exfalso
    omega

theorem request_some (count align : Nat)
    (h16 : STDCPP_DEFAULT_NEW_ALIGNMENT < align)
    (hfit : align + count + sizeof_ptr < SIZE_MOD) :
    operator_new_aligned_request count align
      = some (align + count + sizeof_ptr) := by
  unfold operator_new_aligned_request
  simp only [SIZE_MOD, STDCPP_DEFAULT_NEW_ALIGNMENT, sizeof_ptr] at *
  split_ifs with g1 g2 g3
  · exact absurd g1 (by omega)
  · exfalso
    omega
  · exfalso
    omega
  · simp only [Option.some.injEq]
    omega

/-- C7 counterexample: `align = 32`, `count = 2^64 - 56`. The checked sum
`align + count + sizeof(void*) = 2^64 - 16` does not overflow, so no
`std::bad_alloc` is thrown, yet `ThreadLocalHeap::alloc` then adds the
16-byte header offset and `HeapAlloc` is invoked for 0 bytes — a wrapped
size far below the requested `count`, contradicting the claim that the
underlying allocation is never invoked with a wrapped or truncated size. -/
theorem c7_wrapped_os_request :
    STDCPP_DEFAULT_NEW_ALIGNMENT < 32 ∧
    operator_new_aligned_request (SIZE_MOD - 56) 32 = some (SIZE_MOD - 16) ∧
    operator_new_aligned_os_request (SIZE_MOD - 56) 32 = some 0 ∧
    (0 : Nat) < SIZE_MOD - 56 := by decide

/-- C7 (amended): for every alignment above the platform default the
over-aligned `operator new` computes `align + count` and then adds
`sizeof(void*)`, each step checked for wraparound, and throws
`std::bad_alloc` exactly when the true sum `align + count + sizeof(void*)`
reaches `2^64` — in that case before any allocation call; when the check
passes, the inner `operator new` is called with exactly that sum. However
the request that reaches the OS allocator additionally includes the
`heap_ptr_ofst()` header bytes added without any check, so for sums in
`[2^64 - heap_ptr_ofst(), 2^64 - 1]` the OS allocation is still invoked
with a wrapped size smaller than `count`. -/
theorem c7_overflow_check_spec (count align : Nat)
    (h16 : STDCPP_DEFAULT_NEW_ALIGNMENT < align)
    (ha : align < SIZE_MOD) (hc : count < SIZE_MOD) :
    (SIZE_MOD ≤ align + count + sizeof_ptr →
      operator_new_aligned_request count align = none ∧
      operator_new_aligned_os_request count align = none) ∧
    (align + count + sizeof_ptr < SIZE_MOD →
      operator_new_aligned_request count align = some (align + count + sizeof_ptr) ∧
      operator_new_aligned_os_request count align
        = some ((align + count + sizeof_ptr + heap_ptr_ofst) % SIZE_MOD) ∧
      (SIZE_MOD ≤ align + count + sizeof_ptr + heap_ptr_ofst →
        align + sizeof_ptr + heap_ptr_ofst < SIZE_MOD →
        ∃ r, operator_new_aligned_os_request count align = some r ∧ r < count)) := by
  constructor
  · intro hov
    have hr := request_none count align h16 ha hc hov
    refine ⟨hr, ?_⟩
    unfold operator_new_aligned_os_request
    rw [hr]
    rfl
  · intro hfit
    have hr := request_some count align h16 hfit
    have hos : operator_new_aligned_os_request count align
        = some ((align + count + sizeof_ptr + heap_ptr_ofst) % SIZE_MOD) := by
      unfold operator_new_aligned_os_request ThreadLocalHeap.overalloc
      rw [hr]
      rfl
    refine ⟨hr, hos, ?_⟩
    intro hwrap halign
    refine ⟨(align + count + sizeof_ptr + heap_ptr_ofst) % SIZE_MOD, hos, ?_⟩
    simp only [SIZE_MOD, STDCPP_DEFAULT_NEW_ALIGNMENT, sizeof_ptr, heap_ptr_ofst_eq] at *
    omega

/-- C7 witness: a benign over-aligned request (`align 32`, `count 100`) with
the checked sum 140 and OS request 156. -/
theorem c7_overflow_check_spec_witness :
    (STDCPP_DEFAULT_NEW_ALIGNMENT < 32 ∧ (32 : Nat) < SIZE_MOD ∧
      (100 : Nat) < SIZE_MOD ∧ 32 + 100 + sizeof_ptr < SIZE_MOD) ∧
    operator_new_aligned_request 100 32 = some (32 + 100 + sizeof_ptr) ∧
    operator_new_aligned_os_request 100 32
      = some ((32 + 100 + sizeof_ptr + heap_ptr_ofst) % SIZE_MOD) :=
  ⟨⟨by decide, by decide, by decide, by decide⟩,
    ((c7_overflow_check_spec 100 32 (by decide) (by decide) (by decide)).2
      (by decide)).1,
    ((c7_overflow_check_spec 100 32 (by decide) (by decide) (by decide)).2
      (by decide)).2.1⟩

/-- C8: plain `operator delete(null)` is a no-op (the claim's first half,
which holds), and over-aligned `operator delete(null, al)` with the default
alignment reads nothing; but for any over-alignment (here 32) it
dereferences address `null - sizeof(void*)` = `0xFFFFFFFFFFFFFFF8` before
any null check — a wild read that faults, contradicting the claim that
aligned null deallocation performs no heap operation and does not fault. -/
theorem c8_aligned_null_delete_reads_wild_address :
    delete_impl 0 = none ∧
    operator_delete_aligned_read 0 16 = none ∧
    operator_delete_aligned_read 0 32 = some (SIZE_MOD - sizeof_ptr) := by decide

theorem align_up_bounds (p a : Nat) (ha : 0 < a) :
    p ≤ align_up p a ∧ align_up p a ≤ p + a - 1 ∧ align_up p a % a = 0 := by
  unfold align_up
  have hdm := Nat.div_add_mod (p + a - 1) a
  have hml := Nat.mod_lt (p + a - 1) ha
  refine ⟨by omega, by omega, ?_⟩
  exact Nat.mul_mod_right a ((p + a - 1) / a)

theorem std_align_eval (align size p space : Nat)
    (h : align_up p align + size ≤ p + space) :
    std_align align size p space = some (align_up p align) := by
  unfold std_align
  rw [if_pos h]

/-- C9: for any over-alignment and any size whose checked request fits, with
the inner `operator new` returning base `u` (itself at least header-offset
deep in the address space, block within the 64-bit range): no overflow is
signalled and the request reserves `align + count + sizeof(void*)` bytes;
the address returned to the caller is a multiple of `align`, lies within the
over-allocated block with `count` payload bytes to spare, the unaligned base
`u` sits in the recovery slot immediately before it (above the block's own
back-reference header, which stays intact), and the matching over-aligned
`operator delete` reads that slot and hands exactly `u` back to
`operator delete` — the pair round-trips onto the underlying allocation
without leaking. -/
theorem c9_alignment_round_trip (count align u : Nat) (mem : Nat → Option Nat)
    (h16 : STDCPP_DEFAULT_NEW_ALIGNMENT < align)
    (hfit : align + count + sizeof_ptr < SIZE_MOD)
    (hu : heap_ptr_ofst ≤ u) (hspace : u + align < SIZE_MOD) :
    operator_new_aligned_request count align
      = some (align + count + sizeof_ptr) ∧
    (operator_new_aligned_place align u (align + count + sizeof_ptr)).1 % align = 0 ∧
    u ≤ (operator_new_aligned_place align u (align + count + sizeof_ptr)).1 ∧
    (operator_new_aligned_place align u (align + count + sizeof_ptr)).1 + count
      ≤ u + (align + count + sizeof_ptr) ∧
    (operator_new_aligned_place align u (align + count + sizeof_ptr)).2
      = (operator_new_aligned_place align u (align + count + sizeof_ptr)).1
        - sizeof_ptr ∧
    u - heap_ptr_ofst
      < (operator_new_aligned_place align u (align + count + sizeof_ptr)).2 ∧
    operator_delete_aligned_target
        (operator_new_aligned_mem mem align u (align + count + sizeof_ptr))
        (operator_new_aligned_place align u (align + count + sizeof_ptr)).1 align
      = some u := by
  have h16' : (16 : Nat) < align := by
    have h := h16
    simp only [STDCPP_DEFAULT_NEW_ALIGNMENT] at h
    exact h
  have hu' : (16 : Nat) ≤ u := by
    have h := hu
    rw [heap_ptr_ofst_eq] at h
    exact h
  have hapos : 0 < align := by omega
  obtain ⟨hge, hle, hmod⟩ := align_up_bounds u align hapos
  have hcond : align_up u align + 0 ≤ u + (align + count + sizeof_ptr) := by
    have : (0 : Nat) ≤ count + sizeof_ptr := Nat.zero_le _
    omega
  have hplace : operator_new_aligned_place align u (align + count + sizeof_ptr)
      = (align_up u align, slot_addr (align_up u align)) := by
    unfold operator_new_aligned_place
    rw [std_align_eval align 0 u (align + count + sizeof_ptr) hcond]
  have hslot : slot_addr (align_up u align) = align_up u align - sizeof_ptr := by
    unfold slot_addr
    have hub : align_up u align < SIZE_MOD := by
      simp only [SIZE_MOD] at *
      omega
    simp only [SIZE_MOD, sizeof_ptr] at *
    omega
  refine ⟨request_some count align h16 hfit, ?_, ?_, ?_, ?_, ?_, ?_⟩
  · rw [hplace]
    exact hmod
  · rw [hplace]
    exact hge
  · rw [hplace]
    omega
  · rw [hplace, hslot]
  · rw [hplace, hslot]
    simp only [heap_ptr_ofst_eq, sizeof_ptr] at *
    omega
  · unfold operator_delete_aligned_target operator_new_aligned_mem
    rw [hplace, if_pos h16]
    dsimp only
    rw [if_pos rfl]

/-- C9 witness: `align 32`, `count 5`, inner base `u = 48`: the caller gets
address 64 (32-aligned), the slot at 56 holds 48 in the block's padding, and
the aligned delete recovers 48. -/
theorem c9_alignment_round_trip_witness :
    (STDCPP_DEFAULT_NEW_ALIGNMENT < 32 ∧ 32 + 5 + sizeof_ptr < SIZE_MOD ∧
      heap_ptr_ofst ≤ 48 ∧ 48 + 32 < SIZE_MOD) ∧
    (operator_new_aligned_request 5 32 = some (32 + 5 + sizeof_ptr) ∧
     (operator_new_aligned_place 32 48 (32 + 5 + sizeof_ptr)).1 % 32 = 0 ∧
     48 ≤ (operator_new_aligned_place 32 48 (32 + 5 + sizeof_ptr)).1 ∧
     (operator_new_aligned_place 32 48 (32 + 5 + sizeof_ptr)).1 + 5
       ≤ 48 + (32 + 5 + sizeof_ptr) ∧
     (operator_new_aligned_place 32 48 (32 + 5 + sizeof_ptr)).2
       = (operator_new_aligned_place 32 48 (32 + 5 + sizeof_ptr)).1 - sizeof_ptr ∧
     48 - heap_ptr_ofst
       < (operator_new_aligned_place 32 48 (32 + 5 + sizeof_ptr)).2 ∧
     operator_delete_aligned_target
         (operator_new_aligned_mem (fun _ => none) 32 48 (32 + 5 + sizeof_ptr))
         (operator_new_aligned_place 32 48 (32 + 5 + sizeof_ptr)).1 32
       = some 48) :=
  ⟨⟨by decide, by decide, by decide, by decide⟩,
    c9_alignment_round_trip 5 32 48 (fun _ => none) (by decide) (by decide)
      (by decide) (by decide)⟩

/-- C10: `ThreadLocalHeap::alloc` computes `overalloc = count +`
`heap_ptr_ofst()` in `size_t` arithmetic with no overflow check, so for
every `count` greater than `SIZE_MAX - heap_ptr_ofst()` (with
`SIZE_MAX = 2^64 - 1`) the sum wraps modulo `2^64`, the heap is asked for
`count + heap_ptr_ofst() - 2^64` bytes — fewer than requested — and the
request is not rejected: when `HeapAlloc` returns a block, `alloc` still
hands out a pointer. -/
theorem c10_alloc_request_wraps (count : Nat) (hc : count < SIZE_MOD)
    (hbig : SIZE_MOD - 1 - heap_ptr_ofst < count) (t : ThreadLocalHeap) (fb p : Nat)
    (heaps : Nat → PrivateHeap) (mem : Nat → Option Nat)
    (hready : t.ready = true) :
    ThreadLocalHeap.overalloc count = count + heap_ptr_ofst - SIZE_MOD ∧
    ThreadLocalHeap.overalloc count < count ∧
    (t.alloc count fb heaps mem (fun _ => some p)).1
      = some ((p + heap_ptr_ofst) % SIZE_MOD) := by
  have h1 : ThreadLocalHeap.overalloc count
      = count + heap_ptr_ofst - SIZE_MOD := by
    unfold ThreadLocalHeap.overalloc
    simp only [SIZE_MOD, heap_ptr_ofst_eq] at *
    omega
  refine ⟨h1, ?_, ?_⟩
  · rw [h1]
    simp only [SIZE_MOD, heap_ptr_ofst_eq] at *
    omega
  · rw [tlh_alloc_some t count fb heaps mem (fun _ => some p) p hready rfl]

/-- C10 witness: the boundary count `2^64 - 16` (the smallest size above
`SIZE_MAX - heap_ptr_ofst()`) makes the heap request wrap to exactly 0
bytes and the allocation still succeeds. -/
theorem c10_alloc_request_wraps_witness :
    ((SIZE_MOD - 16 : Nat) < SIZE_MOD ∧
      SIZE_MOD - 1 - heap_ptr_ofst < SIZE_MOD - 16) ∧
    (ThreadLocalHeap.overalloc (SIZE_MOD - 16)
        = SIZE_MOD - 16 + heap_ptr_ofst - SIZE_MOD ∧
     ThreadLocalHeap.overalloc (SIZE_MOD - 16) < SIZE_MOD - 16 ∧
     ((⟨3, true⟩ : ThreadLocalHeap).alloc (SIZE_MOD - 16) 0
        (fun i => PrivateHeap.create false i) (fun _ => none)
        (fun _ => some 32)).1 = some ((32 + heap_ptr_ofst) % SIZE_MOD)) :=
  ⟨⟨by decide, by decide⟩,
    c10_alloc_request_wraps (SIZE_MOD - 16) (by decide) (by decide) ⟨3, true⟩ 0 32
      (fun i => PrivateHeap.create false i) (fun _ => none) rfl⟩

